import Mathlib

/-!
# ipfs-update: the command actions of `main.go`

A shallow embedding of the six command actions registered in `main` (`versions`,
`version`, `install`, `stash`, `revert`, `fetch`).

* Go strings and byte slices are modelled by Lean `String`.
* Every function the actions call but `main.go` does not define (`GetVersions`,
  `GetLatestVersion`, `InstallVersion`, `os.Stat`, ...) is a field of `Env`: a
  function from the state of the outside world to a result and a new state.
* Every call an action makes is appended, with its arguments and its result, to a
  trace, so that "is never called", "is called exactly once with ..." are statements
  about the trace.
* `stump.Fatal` ends the process: nothing after it runs.
-/

namespace IpfsUpdate

/-! ## Values -/

/-- A non-nil Go `error`: its message, and whether `os.IsNotExist` holds of it. -/
structure GoError where
  msg : String
  notExist : Bool
deriving DecidableEq, Repr

/-- Result of a Go function returning `(T, error)`: the value (read by the callers only
when the error is nil) or the non-nil error. -/
inductive Result (α : Type) where
  | ok (val : α)
  | err (e : GoError)
deriving DecidableEq, Repr

/-- Result of a Go function returning `error` only; `none` is `nil`. -/
abbrev ErrorOnly := Option GoError

/-- Go `os.IsNotExist(err)`; false on a nil error. -/
def osIsNotExist : ErrorOnly → Bool
  | none => false
  | some e => e.notExist

/-- The package-level variable `ipfsVersionPath` (main.go:16). -/
def ipfsVersionPath : String := "/ipfs/QmSiTko9JZyabH56y2fussEt1A5oDqsFXB3CkvAqraFryz"

/-- The `*cli.Context` handed to an action: the positional arguments left after flag
parsing (`c.Args()`) and the values of the flags (`flagString` is Go `c.String`,
`flagBool` is Go `c.Bool`; the Go names clash with the Lean types). -/
structure Context where
  args : List String
  flagString : String → String
  flagBool : String → Bool

/-- Go `cli.Args.First`: the first positional argument, or `""` when there is none. -/
def Args.First : List String → String
  | [] => ""
  | a :: _ => a

/-- Go `string(b)` for a byte slice `b`: the same bytes. -/
def bytesToString (b : String) : String := b

/-! ## Calls and traces -/

/-- One call made by a command action, with its arguments and what it returned. -/
inductive Event where
  | GetVersions (ipfspath : String) (r : Result (List String))
  | GetLatestVersion (ipfspath : String) (r : Result String)
  | GetCurrentVersion (r : Result String)
  | InstallVersion (root vers : String) (nocheck : Bool) (r : ErrorOnly)
  | StashOldBinary (tag : String) (keep : Bool) (r : ErrorOnly)
  | selectRevertBin (r : Result String)
  | ipfsDir (r : String)
  | ReadFile (path : String) (r : Result String)
  | InstallBinaryTo (src dst : String) (r : ErrorOnly)
  | GetBinaryForVersion (root vers out : String) (r : ErrorOnly)
  | hasDaemonRunning (r : Bool)
  | osStat (path : String) (r : ErrorOnly)
  | osChmod (path : String) (mode : Nat) (r : ErrorOnly)
  | Println (line : String)
  | stumpLog (args : List String)
  | stumpError (args : List String)
  | stumpFatal (args : List String)
deriving DecidableEq, Repr

/-- The functions the actions call and `main.go` does not define, over a state `σ` of
the outside world (file system, network, running processes). -/
structure Env (σ : Type) where
  GetVersions : String → σ → Result (List String) × σ
  GetLatestVersion : String → σ → Result String × σ
  GetCurrentVersion : σ → Result String × σ
  InstallVersion : String → String → Bool → σ → ErrorOnly × σ
  StashOldBinary : String → Bool → σ → ErrorOnly × σ
  selectRevertBin : σ → Result String × σ
  ipfsDir : σ → String × σ
  InstallBinaryTo : String → String → σ → ErrorOnly × σ
  GetBinaryForVersion : String → String → String → σ → ErrorOnly × σ
  hasDaemonRunning : σ → Bool × σ
  osStat : String → σ → ErrorOnly × σ
  osChmod : String → Nat → σ → ErrorOnly × σ
  ReadFile : String → σ → Result String × σ
  filepathJoin : List String → String

/-- State of a running command: the outside world and the calls made so far. -/
structure Run (σ : Type) where
  st : σ
  trace : List Event

/-- What a step of a command yields: a value, or the end of the process with an exit
code. -/
inductive Step (α : Type) where
  | val (a : α)
  | exit (code : Nat)

/-- A command: from the running state to a step and the running state after it. -/
def Cmd (σ α : Type) : Type := Run σ → Step α × Run σ

/-- Sequencing: a command that ended the process runs nothing more. -/
def Cmd.bind {σ α β : Type} (m : Cmd σ α) (f : α → Cmd σ β) : Cmd σ β := fun w =>
  match m w with
  | (Step.val a, w1) => f a w1
  | (Step.exit code, w1) => (Step.exit code, w1)

instance {σ : Type} : Monad (Cmd σ) where
  pure a := fun w => (Step.val a, w)
  bind := Cmd.bind

/-- Perform one outside call: run it on the world, record it with its result. -/
def call {σ α : Type} (f : σ → α × σ) (ev : α → Event) : Cmd σ α := fun w =>
  ((Step.val (f w.st).1), ⟨(f w.st).2, w.trace ++ [ev (f w.st).1]⟩)

/-- Record an output call that does not touch the modelled world. -/
def emit {σ : Type} (e : Event) : Cmd σ Unit := fun w =>
  (Step.val (), ⟨w.st, w.trace ++ [e]⟩)

/-- Modelled from the spec: `stump.Fatal` of the imported package `stump` ("error halts
the whole process immediately", reported "with a non-zero exit"): it reports its
arguments and ends the process with exit code 1. -/
def stumpFatal {σ α : Type} (args : List String) : Cmd σ α := fun w =>
  (Step.exit 1, ⟨w.st, w.trace ++ [Event.stumpFatal args]⟩)

/-- Go `stump.Log`. -/
def stumpLog {σ : Type} (args : List String) : Cmd σ Unit := emit (Event.stumpLog args)

/-- Go `stump.Error`: reports and returns. -/
def stumpError {σ : Type} (args : List String) : Cmd σ Unit := emit (Event.stumpError args)

/-- Go `fmt.Println(v)` for a string `v`. -/
def Println {σ : Type} (v : String) : Cmd σ Unit := emit (Event.Println v)

/-- The Go loop `for _, v := range vs` with body `fmt.Println(v)` (main.go:47-49). -/
def printAll {σ : Type} : List String → Cmd σ Unit
  | [] => pure ()
  | v :: vs => do
    Println v
    printAll vs

/-! ## The command actions -/

/-- Action of `versions` (main.go:41-50). -/
def versionsAction {σ : Type} (env : Env σ) (_c : Context) : Cmd σ Unit := do
  let r ← call (env.GetVersions ipfsVersionPath) (Event.GetVersions ipfsVersionPath)
  match r with
  | Result.err e => stumpFatal ["Failed to query versions: ", e.msg]
  | Result.ok vs => printAll vs

/-- Action of `version` (main.go:55-62). -/
def versionAction {σ : Type} (env : Env σ) (_c : Context) : Cmd σ Unit := do
  let r ← call env.GetCurrentVersion Event.GetCurrentVersion
  match r with
  | Result.err e => stumpFatal ["Failed to check local version: ", e.msg]
  | Result.ok v => Println v

/-- Action of `install` (main.go:73-95). -/
def installAction {σ : Type} (env : Env σ) (c : Context) : Cmd σ Unit := do
  let mut vers := Args.First c.args
  if vers == "" then
    stumpFatal ["Please specify a version to install"]
  if vers == "latest" then
    let r ← call (env.GetLatestVersion ipfsVersionPath) (Event.GetLatestVersion ipfsVersionPath)
    match r with
    | Result.err e => stumpFatal ["error resolving 'latest': ", e.msg]
    | Result.ok latest => vers := latest
  let err ← call (env.InstallVersion ipfsVersionPath vers (c.flagBool "no-check"))
    (Event.InstallVersion ipfsVersionPath vers (c.flagBool "no-check"))
  match err with
  | some e => stumpFatal [e.msg]
  | none => pure ()
  stumpLog ["\ninstallation complete."]
  if (← call env.hasDaemonRunning Event.hasDaemonRunning) then
    stumpLog ["remember to restart your daemon before continuing"]

/-- Action of `stash` (main.go:106-120). -/
def stashAction {σ : Type} (env : Env σ) (c : Context) : Cmd σ Unit := do
  let mut tag := c.flagString "tag"
  if tag == "" then
    let r ← call env.GetCurrentVersion Event.GetCurrentVersion
    match r with
    | Result.err e => stumpFatal [e.msg]
    | Result.ok vers => tag := vers
  let err ← call (env.StashOldBinary tag true) (Event.StashOldBinary tag true)
  match err with
  | some e => stumpFatal [e.msg]
  | none => pure ()

/-- Action of `revert` (main.go:127-145). -/
def revertAction {σ : Type} (env : Env σ) (_c : Context) : Cmd σ Unit := do
  let r ← call env.selectRevertBin Event.selectRevertBin
  match r with
  | Result.err e => stumpFatal [e.msg]
  | Result.ok oldbinpath =>
    let dir ← call env.ipfsDir Event.ipfsDir
    let p := env.filepathJoin [dir, "old-bin", "path-old"]
    let rd ← call (env.ReadFile p) (Event.ReadFile p)
    match rd with
    | Result.err e => stumpFatal ["Path for previous installation could not be read: ", e.msg]
    | Result.ok oldpath =>
      let binpath := bytesToString oldpath
      let err ← call (env.InstallBinaryTo oldbinpath binpath)
        (Event.InstallBinaryTo oldbinpath binpath)
      match err with
      | some e => do
        stumpError ["failed to move old binary: %s", oldbinpath]
        stumpError ["to path: %s", binpath]
        stumpFatal [e.msg]
      | none => pure ()

/-- Action of `fetch` (main.go:150-185). -/
def fetchAction {σ : Type} (env : Env σ) (c : Context) : Cmd σ Unit := do
  let mut vers := Args.First c.args
  if vers == "" || vers == "latest" then
    let r ← call (env.GetLatestVersion ipfsVersionPath) (Event.GetLatestVersion ipfsVersionPath)
    match r with
    | Result.err e => stumpFatal ["error querying latest version: ", e.msg]
    | Result.ok latest => vers := latest
  let mut output := "ipfs-" ++ vers
  let ofl := c.flagString "output"
  if ofl != "" then
    output := ofl
  let err ← call (env.osStat output) (Event.osStat output)
  if err == none then
    stumpFatal ["file named %s already exists"]
  if !osIsNotExist err then
    stumpFatal ["stat(%s)", output, (err.map GoError.msg).getD ""]
  let err2 ← call (env.GetBinaryForVersion ipfsVersionPath vers output)
    (Event.GetBinaryForVersion ipfsVersionPath vers output)
  match err2 with
  | some e => stumpFatal ["Failed to fetch binary: ", e.msg]
  | none => pure ()
  let err3 ← call (env.osChmod output 0o755) (Event.osChmod output 0o755)
  match err3 with
  | some e => stumpFatal ["setting new binary executable: ", e.msg]
  | none => pure ()

/-- Outcome of a whole command run. -/
structure Outcome (σ : Type) where
  exitCode : Nat
  st : σ
  trace : List Event

/-- Run an action from world `s` with an empty trace; an action that returns lets
`main` return, which is exit code 0. -/
def runAction {σ : Type} (act : Cmd σ Unit) (s : σ) : Outcome σ :=
  match act ⟨s, []⟩ with
  | (Step.val _, w) => ⟨0, w.st, w.trace⟩
  | (Step.exit code, w) => ⟨code, w.st, w.trace⟩

/-! ## Reading a trace -/

/-- The lines written by `fmt.Println`, in order. -/
def printedLines : List Event → List String
  | [] => []
  | Event.Println v :: t => v :: printedLines t
  | _ :: t => printedLines t

/-- The versions handed to `InstallVersion`, in order of the calls. -/
def installVersionCalls : List Event → List String
  | [] => []
  | Event.InstallVersion _ vers _ _ :: t => vers :: installVersionCalls t
  | _ :: t => installVersionCalls t

/-- The `(tag, keep)` arguments handed to `StashOldBinary`, in order of the calls. -/
def stashCalls : List Event → List (String × Bool)
  | [] => []
  | Event.StashOldBinary tag keep _ :: t => (tag, keep) :: stashCalls t
  | _ :: t => stashCalls t

/-- The `(source, destination)` arguments handed to `InstallBinaryTo`, in order of the
calls. -/
def installBinaryCalls : List Event → List (String × String)
  | [] => []
  | Event.InstallBinaryTo src dst _ :: t => (src, dst) :: installBinaryCalls t
  | _ :: t => installBinaryCalls t

/-! ## A concrete world to run the actions on -/

/-- Modelled from the spec: a `StashEntry` of the data model, "tag, binaryPath,
originalInstallPath". -/
structure StashEntry where
  tag : String
  binaryPath : String
  originalInstallPath : String
deriving DecidableEq, Repr

/-- Modelled from the spec: lookup of the stash entry with "that exact tag"; the stash is
kept oldest first and a later entry supersedes an earlier one with the same tag. -/
def lookupTag (stash : List StashEntry) (t : String) : Option StashEntry :=
  (stash.reverse).find? (fun e => e.tag == t)

/-- A small world: the remote index (`none` when unreachable), the files by path, the
stash (oldest first) and the version of the active binary. -/
structure DemoWorld where
  index : Option (List String)
  files : List (String × String)
  stash : List StashEntry
  current : Option String
deriving DecidableEq, Repr

/-- Where the demo world keeps the active binary. -/
def demoInstallPath : String := "/usr/local/bin/ipfs"

/-- The IPFS directory of the demo world. -/
def demoDir : String := "/home/op/.ipfs"

/-- Write `content` at path `p`, replacing what was there. -/
def writeFile (p content : String) (fs : List (String × String)) : List (String × String) :=
  (p, content) :: fs.filter (fun f => f.1 != p)

/-- Modelled from the spec: the functions of the repository that `main.go` calls and
does not define, and the file-system calls, over `DemoWorld`. `GetLatestVersion` is
"the last entry" of the index and fails on an empty one; `selectRevertBin`, which
takes no tag, picks the most recent stash entry and fails on an empty stash. -/
def demoEnv : Env DemoWorld where
  GetVersions _ w :=
    match w.index with
    | none => (Result.err ⟨"remote index unreachable", false⟩, w)
    | some vs => (Result.ok vs, w)
  GetLatestVersion _ w :=
    match w.index with
    | none => (Result.err ⟨"remote index unreachable", false⟩, w)
    | some vs =>
      match vs.getLast? with
      | none => (Result.err ⟨"no versions published", false⟩, w)
      | some v => (Result.ok v, w)
  GetCurrentVersion w :=
    match w.current with
    | none => (Result.err ⟨"no ipfs binary installed", false⟩, w)
    | some v => (Result.ok v, w)
  InstallVersion _ vers _ w :=
    if (w.index.getD []).contains vers then
      (none, { w with files := writeFile demoInstallPath ("ipfs " ++ vers) w.files,
                      current := some vers })
    else (some ⟨"version not found", false⟩, w)
  StashOldBinary tag _ w :=
    match w.files.lookup demoInstallPath with
    | none => (some ⟨"no binary to stash", true⟩, w)
    | some bin =>
      let dst := demoDir ++ "/old-bin/ipfs-" ++ tag
      (none, { w with
        files := writeFile (demoDir ++ "/old-bin/path-old") demoInstallPath
          (writeFile dst bin w.files),
        stash := w.stash.filter (fun e => e.tag != tag) ++ [⟨tag, dst, demoInstallPath⟩] })
  selectRevertBin w :=
    match w.stash.getLast? with
    | none => (Result.err ⟨"no prior binary found", false⟩, w)
    | some e => (Result.ok e.binaryPath, w)
  ipfsDir w := (demoDir, w)
  InstallBinaryTo src dst w :=
    match w.files.lookup src with
    | none => (some ⟨"no such file or directory", true⟩, w)
    | some bin => (none, { w with files := writeFile dst bin w.files })
  GetBinaryForVersion _ vers out w :=
    if (w.index.getD []).contains vers then
      (none, { w with files := writeFile out ("ipfs " ++ vers) w.files })
    else (some ⟨"version not found", false⟩, w)
  hasDaemonRunning w := (false, w)
  osStat p w :=
    match w.files.lookup p with
    | some _ => (none, w)
    | none => (some ⟨"no such file or directory", true⟩, w)
  osChmod p _ w :=
    match w.files.lookup p with
    | some _ => (none, w)
    | none => (some ⟨"no such file or directory", true⟩, w)
  ReadFile p w :=
    match w.files.lookup p with
    | some content => (Result.ok content, w)
    | none => (Result.err ⟨"no such file or directory", true⟩, w)
  filepathJoin parts := "/".intercalate parts

/-- Version 0.3.0 is active, nothing is stashed, the index has three versions. -/
def demoWorld : DemoWorld :=
  { index := some ["0.3.0", "0.4.0", "0.4.1"],
    files := [(demoInstallPath, "ipfs 0.3.0")],
    stash := [],
    current := some "0.3.0" }

/-- The demo world with an empty remote index. -/
def emptyIndexWorld : DemoWorld := { demoWorld with index := some [] }

/-- The demo world with a remote index whose last entry is the string "latest". -/
def aliasIndexWorld : DemoWorld := { demoWorld with index := some ["0.4.1", "latest"] }

/-- The demo world with an unreachable remote index. -/
def offlineWorld : DemoWorld := { demoWorld with index := none }

/-- The demo world after 0.3.0 and then 0.4.0 were stashed, 0.4.1 being active. -/
def stashedWorld : DemoWorld :=
  { index := some ["0.3.0", "0.4.0", "0.4.1"],
    files := [(demoInstallPath, "ipfs 0.4.1"),
              ("/home/op/.ipfs/old-bin/path-old", demoInstallPath),
              ("/home/op/.ipfs/old-bin/ipfs-0.4.0", "ipfs 0.4.0"),
              ("/home/op/.ipfs/old-bin/ipfs-0.3.0", "ipfs 0.3.0")],
    stash := [⟨"0.3.0", "/home/op/.ipfs/old-bin/ipfs-0.3.0", demoInstallPath⟩,
              ⟨"0.4.0", "/home/op/.ipfs/old-bin/ipfs-0.4.0", demoInstallPath⟩],
    current := some "0.4.1" }

/-- A context with the given positional arguments and no flag set. -/
def ctxArgs (args : List String) : Context :=
  { args := args, flagString := fun _ => "", flagBool := fun _ => false }

/-- A context with no positional argument and one string flag set. -/
def ctxFlag (name value : String) : Context :=
  { args := [], flagString := fun n => if n == name then value else "",
    flagBool := fun _ => false }


/-! ## The `fetch` action, path by path -/

/-- The output path `fetch` settles on for version `vers` (main.go:161-165). -/
def fetchOutput (c : Context) (vers : String) : String :=
  if c.flagString "output" = "" then "ipfs-" ++ vers else c.flagString "output"

/-- The outcome of main.go:167-184 for version `vers` and output path `output`, from
world `s`, after the calls `pre`. -/
def fetchTail {σ : Type} (env : Env σ) (vers output : String) (s : σ) (pre : List Event) :
    Outcome σ :=
  match env.osStat output s with
  | (none, s1) =>
    ⟨1, s1, pre ++ [Event.osStat output none, Event.stumpFatal ["file named %s already exists"]]⟩
  | (some e, s1) =>
    if e.notExist = true then
      match env.GetBinaryForVersion ipfsVersionPath vers output s1 with
      | (some e2, s2) =>
        ⟨1, s2, pre ++ [Event.osStat output (some e),
          Event.GetBinaryForVersion ipfsVersionPath vers output (some e2),
          Event.stumpFatal ["Failed to fetch binary: ", e2.msg]]⟩
      | (none, s2) =>
        match env.osChmod output 0o755 s2 with
        | (some e3, s3) =>
          ⟨1, s3, pre ++ [Event.osStat output (some e),
            Event.GetBinaryForVersion ipfsVersionPath vers output none,
            Event.osChmod output 0o755 (some e3),
            Event.stumpFatal ["setting new binary executable: ", e3.msg]]⟩
        | (none, s3) =>
          ⟨0, s3, pre ++ [Event.osStat output (some e),
            Event.GetBinaryForVersion ipfsVersionPath vers output none,
            Event.osChmod output 0o755 none]⟩
    else
      ⟨1, s1, pre ++ [Event.osStat output (some e),
        Event.stumpFatal ["stat(%s)", output, e.msg]]⟩

/-- The outcome of the whole `fetch` action, as a decision tree over the results of the
outside calls; `fetchAction_outcome` proves that running `fetchAction` gives exactly
this. -/
def fetchOutcome {σ : Type} (env : Env σ) (c : Context) (s : σ) : Outcome σ :=
  if Args.First c.args = "" ∨ Args.First c.args = "latest" then
    match env.GetLatestVersion ipfsVersionPath s with
    | (Result.err e, s0) =>
      ⟨1, s0, [Event.GetLatestVersion ipfsVersionPath (Result.err e),
        Event.stumpFatal ["error querying latest version: ", e.msg]]⟩
    | (Result.ok v, s0) =>
      fetchTail env v (fetchOutput c v) s0 [Event.GetLatestVersion ipfsVersionPath (Result.ok v)]
  else fetchTail env (Args.First c.args) (fetchOutput c (Args.First c.args)) s []

/-! ## Running commands step by step -/

/-- Sequencing two commands runs `Cmd.bind`. -/
theorem bind_run {σ α β : Type} (m : Cmd σ α) (f : α → Cmd σ β) (w : Run σ) :
    (m >>= f) w = Cmd.bind m f w := rfl

/-- A returned value leaves the running state as it is. -/
theorem pure_run {σ α : Type} (a : α) (w : Run σ) :
    (pure a : Cmd σ α) w = (Step.val a, w) := rfl

/-- The print loop prints every element, in order, and returns. -/
theorem printAll_run {σ : Type} (vs : List String) (w : Run σ) :
    printAll vs w = (Step.val (), ⟨w.st, w.trace ++ vs.map Event.Println⟩) := by
  induction vs generalizing w with
  | nil => simp [printAll, pure_run]
  | cons v vs ih => simp [printAll, bind_run, Cmd.bind, Println, emit, ih]

/-- Reading back the lines of a run of `fmt.Println` calls gives the lines. -/
theorem printedLines_map_Println (vs : List String) :
    printedLines (vs.map Event.Println) = vs := by
  induction vs with
  | nil => rfl
  | cons v vs ih => simp [printedLines, ih]

/-! ## The claims -/

/-- C2: `install latest` with a failing `GetLatestVersion` (as on an empty remote index)
ends the process with exit code 1 right after that call: the trace is the failed
resolution and the fatal report, `InstallVersion` and `StashOldBinary` are never called,
and the world is the one `GetLatestVersion` left. -/
theorem install_latest_unresolved_is_fatal {σ : Type} (env : Env σ) (c : Context)
    (s s1 : σ) (e : GoError)
    (harg : Args.First c.args = "latest")
    (hlat : env.GetLatestVersion ipfsVersionPath s = (Result.err e, s1)) :
    runAction (installAction env c) s =
        ⟨1, s1, [Event.GetLatestVersion ipfsVersionPath (Result.err e),
                 Event.stumpFatal ["error resolving 'latest': ", e.msg]]⟩
      ∧ installVersionCalls (runAction (installAction env c) s).trace = []
      ∧ stashCalls (runAction (installAction env c) s).trace = []
      ∧ (∀ root vers nocheck r,
          Event.InstallVersion root vers nocheck r ∉ (runAction (installAction env c) s).trace) := by
  have h : runAction (installAction env c) s =
      ⟨1, s1, [Event.GetLatestVersion ipfsVersionPath (Result.err e),
               Event.stumpFatal ["error resolving 'latest': ", e.msg]]⟩ := by
    simp [runAction, installAction, bind_run, Cmd.bind, call, stumpFatal, harg, hlat]
  rw [h]
  simp [installVersionCalls, stashCalls]

/-- C2 on the demo world with an empty remote index: `install latest` exits with 1 and
never calls `InstallVersion`. -/
theorem install_latest_unresolved_is_fatal_witness :
    (runAction (installAction demoEnv (ctxArgs ["latest"])) emptyIndexWorld).exitCode = 1
      ∧ installVersionCalls
          (runAction (installAction demoEnv (ctxArgs ["latest"])) emptyIndexWorld).trace = [] := by
  have h := install_latest_unresolved_is_fatal demoEnv (ctxArgs ["latest"]) emptyIndexWorld
    emptyIndexWorld ⟨"no versions published", false⟩ rfl rfl
  exact ⟨by rw [h.1], h.2.1⟩

/-- C3: when `selectRevertBin` fails (nothing is stashed), `revert` ends the process with
exit code 1 right after that call: the pointer record is not read (no `ipfsDir`, no
`ReadFile`), `InstallBinaryTo` is never called, and the world is the one
`selectRevertBin` left. -/
theorem revert_without_stash_is_fatal {σ : Type} (env : Env σ) (c : Context)
    (s s1 : σ) (e : GoError)
    (hsel : env.selectRevertBin s = (Result.err e, s1)) :
    runAction (revertAction env c) s =
        ⟨1, s1, [Event.selectRevertBin (Result.err e), Event.stumpFatal [e.msg]]⟩
      ∧ (∀ p r, Event.ReadFile p r ∉ (runAction (revertAction env c) s).trace)
      ∧ (∀ src dst r, Event.InstallBinaryTo src dst r ∉ (runAction (revertAction env c) s).trace)
      ∧ installBinaryCalls (runAction (revertAction env c) s).trace = [] := by
  have h : runAction (revertAction env c) s =
      ⟨1, s1, [Event.selectRevertBin (Result.err e), Event.stumpFatal [e.msg]]⟩ := by
    simp [runAction, revertAction, bind_run, Cmd.bind, call, stumpFatal, hsel]
  rw [h]
  simp [installBinaryCalls]

/-- C3 on the demo world, where nothing is stashed. -/
theorem revert_without_stash_is_fatal_witness :
    runAction (revertAction demoEnv (ctxArgs [])) demoWorld =
      ⟨1, demoWorld, [Event.selectRevertBin (Result.err ⟨"no prior binary found", false⟩),
                      Event.stumpFatal ["no prior binary found"]]⟩ :=
  (revert_without_stash_is_fatal demoEnv (ctxArgs []) demoWorld demoWorld
    ⟨"no prior binary found", false⟩ rfl).1

/-- C9: when `GetVersions` returns the list `vs`, `versions` prints exactly the elements
of `vs`, one `fmt.Println` each, in the order of `vs`, calls nothing else and exits with
code 0 (for the empty list: prints nothing and exits with code 0); when `GetVersions`
fails, it prints no version and ends the process with exit code 1. -/
theorem versions_prints_list_in_order {σ : Type} (env : Env σ) (c : Context) (s s1 : σ) :
    (∀ vs, env.GetVersions ipfsVersionPath s = (Result.ok vs, s1) →
        runAction (versionsAction env c) s =
            ⟨0, s1, Event.GetVersions ipfsVersionPath (Result.ok vs) :: vs.map Event.Println⟩
          ∧ printedLines (runAction (versionsAction env c) s).trace = vs)
      ∧ (env.GetVersions ipfsVersionPath s = (Result.ok [], s1) →
          runAction (versionsAction env c) s =
            ⟨0, s1, [Event.GetVersions ipfsVersionPath (Result.ok [])]⟩)
      ∧ (∀ e, env.GetVersions ipfsVersionPath s = (Result.err e, s1) →
          runAction (versionsAction env c) s =
            ⟨1, s1, [Event.GetVersions ipfsVersionPath (Result.err e),
                     Event.stumpFatal ["Failed to query versions: ", e.msg]]⟩) := by
  have hok : ∀ vs, env.GetVersions ipfsVersionPath s = (Result.ok vs, s1) →
      runAction (versionsAction env c) s =
        ⟨0, s1, Event.GetVersions ipfsVersionPath (Result.ok vs) :: vs.map Event.Println⟩ := by
    intro vs h
    simp [runAction, versionsAction, bind_run, Cmd.bind, call, printAll_run, h]
  refine ⟨fun vs h => ⟨hok vs h, ?_⟩, fun h => by simpa using hok [] h, fun e h => ?_⟩
  · rw [hok vs h]
    simp [printedLines, printedLines_map_Println]
  · simp [runAction, versionsAction, bind_run, Cmd.bind, call, stumpFatal, h]

/-- C9 on the demo world, on the world with an empty index and on the world with an
unreachable index. -/
theorem versions_prints_list_in_order_witness :
    printedLines (runAction (versionsAction demoEnv (ctxArgs [])) demoWorld).trace
        = ["0.3.0", "0.4.0", "0.4.1"]
      ∧ runAction (versionsAction demoEnv (ctxArgs [])) emptyIndexWorld =
          ⟨0, emptyIndexWorld, [Event.GetVersions ipfsVersionPath (Result.ok [])]⟩
      ∧ (runAction (versionsAction demoEnv (ctxArgs [])) offlineWorld).exitCode = 1 :=
  ⟨((versions_prints_list_in_order demoEnv (ctxArgs []) demoWorld demoWorld).1
      ["0.3.0", "0.4.0", "0.4.1"] rfl).2,
   (versions_prints_list_in_order demoEnv (ctxArgs []) emptyIndexWorld emptyIndexWorld).2.1 rfl,
   by rw [(versions_prints_list_in_order demoEnv (ctxArgs []) offlineWorld offlineWorld).2.2
      ⟨"remote index unreachable", false⟩ rfl]⟩


/-- C4: when `selectRevertBin` returns the stashed binary path `p`, `revert` reads the
pointer record at `filepath.Join(ipfsDir(), "old-bin", "path-old")`. If the read returns
contents `content`, `InstallBinaryTo` is called exactly once, with source `p` and
destination `content` unchanged, and the command exits with 0 when that call succeeds
and with 1 when it fails. If the read fails, the command exits with 1 and
`InstallBinaryTo` is never called. In every case the calls made are only those four
(none of them a write by the command itself) and the final world is the one the last of
them returned. -/
theorem revert_restores_to_recorded_path {σ : Type} (env : Env σ) (c : Context)
    (s s1 : σ) (p : String)
    (hsel : env.selectRevertBin s = (Result.ok p, s1)) :
    (∀ content s3,
        env.ReadFile (env.filepathJoin [(env.ipfsDir s1).1, "old-bin", "path-old"])
            (env.ipfsDir s1).2 = (Result.ok content, s3) →
        installBinaryCalls (runAction (revertAction env c) s).trace = [(p, content)]
          ∧ runAction (revertAction env c) s =
              (match env.InstallBinaryTo p content s3 with
               | (none, s4) =>
                 ⟨0, s4, [Event.selectRevertBin (Result.ok p),
                    Event.ipfsDir (env.ipfsDir s1).1,
                    Event.ReadFile (env.filepathJoin [(env.ipfsDir s1).1, "old-bin", "path-old"])
                      (Result.ok content),
                    Event.InstallBinaryTo p content none]⟩
               | (some e, s4) =>
                 ⟨1, s4, [Event.selectRevertBin (Result.ok p),
                    Event.ipfsDir (env.ipfsDir s1).1,
                    Event.ReadFile (env.filepathJoin [(env.ipfsDir s1).1, "old-bin", "path-old"])
                      (Result.ok content),
                    Event.InstallBinaryTo p content (some e),
                    Event.stumpError ["failed to move old binary: %s", p],
                    Event.stumpError ["to path: %s", content],
                    Event.stumpFatal [e.msg]]⟩))
      ∧ (∀ e s3,
          env.ReadFile (env.filepathJoin [(env.ipfsDir s1).1, "old-bin", "path-old"])
              (env.ipfsDir s1).2 = (Result.err e, s3) →
          installBinaryCalls (runAction (revertAction env c) s).trace = []
            ∧ runAction (revertAction env c) s =
                ⟨1, s3, [Event.selectRevertBin (Result.ok p),
                   Event.ipfsDir (env.ipfsDir s1).1,
                   Event.ReadFile (env.filepathJoin [(env.ipfsDir s1).1, "old-bin", "path-old"])
                     (Result.err e),
                   Event.stumpFatal
                     ["Path for previous installation could not be read: ", e.msg]]⟩) := by
  constructor
  · intro content s3 hrd
    rcases hin : env.InstallBinaryTo p content s3 with ⟨r, s4⟩
    cases r with
    | none =>
      simp [runAction, revertAction, bind_run, pure_run, Cmd.bind, call, stumpFatal, stumpError,
        emit, bytesToString, hsel, hrd, hin, installBinaryCalls]
    | some e =>
      simp [runAction, revertAction, bind_run, pure_run, Cmd.bind, call, stumpFatal, stumpError,
        emit, bytesToString, hsel, hrd, hin, installBinaryCalls]
  · intro e s3 hrd
    simp [runAction, revertAction, bind_run, pure_run, Cmd.bind, call, stumpFatal, stumpError,
      emit, bytesToString, hsel, hrd, installBinaryCalls]

/-- C4 on the world with two stashed binaries, with the pointer record present and with
the pointer record missing. -/
theorem revert_restores_to_recorded_path_witness :
    installBinaryCalls (runAction (revertAction demoEnv (ctxArgs [])) stashedWorld).trace
        = [("/home/op/.ipfs/old-bin/ipfs-0.4.0", "/usr/local/bin/ipfs")]
      ∧ (runAction (revertAction demoEnv (ctxArgs []))
          { stashedWorld with files := [(demoInstallPath, "ipfs 0.4.1")] }).exitCode = 1 :=
  ⟨((revert_restores_to_recorded_path demoEnv (ctxArgs []) stashedWorld stashedWorld
      "/home/op/.ipfs/old-bin/ipfs-0.4.0" rfl).1 "/usr/local/bin/ipfs" stashedWorld rfl).1,
   by rw [((revert_restores_to_recorded_path demoEnv (ctxArgs [])
      { stashedWorld with files := [(demoInstallPath, "ipfs 0.4.1")] }
      { stashedWorld with files := [(demoInstallPath, "ipfs 0.4.1")] }
      "/home/op/.ipfs/old-bin/ipfs-0.4.0" rfl).2
        ⟨"no such file or directory", true⟩
        { stashedWorld with files := [(demoInstallPath, "ipfs 0.4.1")] } rfl).2]⟩

/-- C6: for a non-empty install argument `a`, the version passed to `InstallVersion` is
`a` when `a` is not "latest" (and "latest" is not resolved), and the value `v` that
`GetLatestVersion` returned when `a` is "latest". In both cases `InstallVersion` is run
exactly once, on that version, with the `--no-check` value, and decides the outcome: on
an error the process ends with exit code 1 in the world `InstallVersion` returned; on
success the command logs, asks `hasDaemonRunning` and exits with code 0 in the world
that call returned. If `v` is not the literal "latest", "latest" is not among the
versions passed. -/
theorem install_passes_resolved_version {σ : Type} (env : Env σ) (c : Context) (s : σ)
    (hne : Args.First c.args ≠ "") :
    (Args.First c.args ≠ "latest" →
        runAction (installAction env c) s =
            (match env.InstallVersion ipfsVersionPath (Args.First c.args)
                (c.flagBool "no-check") s with
             | (some e, s2) =>
               ⟨1, s2, [Event.InstallVersion ipfsVersionPath (Args.First c.args)
                  (c.flagBool "no-check") (some e), Event.stumpFatal [e.msg]]⟩
             | (none, s2) =>
               match env.hasDaemonRunning s2 with
               | (true, s3) =>
                 ⟨0, s3, [Event.InstallVersion ipfsVersionPath (Args.First c.args)
                    (c.flagBool "no-check") none,
                    Event.stumpLog ["\ninstallation complete."],
                    Event.hasDaemonRunning true,
                    Event.stumpLog ["remember to restart your daemon before continuing"]]⟩
               | (false, s3) =>
                 ⟨0, s3, [Event.InstallVersion ipfsVersionPath (Args.First c.args)
                    (c.flagBool "no-check") none,
                    Event.stumpLog ["\ninstallation complete."],
                    Event.hasDaemonRunning false]⟩)
          ∧ installVersionCalls (runAction (installAction env c) s).trace = [Args.First c.args]
          ∧ "latest" ∉ installVersionCalls (runAction (installAction env c) s).trace
          ∧ (∀ p r, Event.GetLatestVersion p r ∉ (runAction (installAction env c) s).trace))
      ∧ (Args.First c.args = "latest" → ∀ v s1,
          env.GetLatestVersion ipfsVersionPath s = (Result.ok v, s1) →
          runAction (installAction env c) s =
              (match env.InstallVersion ipfsVersionPath v (c.flagBool "no-check") s1 with
               | (some e, s2) =>
                 ⟨1, s2, [Event.GetLatestVersion ipfsVersionPath (Result.ok v),
                    Event.InstallVersion ipfsVersionPath v (c.flagBool "no-check") (some e),
                    Event.stumpFatal [e.msg]]⟩
               | (none, s2) =>
                 match env.hasDaemonRunning s2 with
                 | (true, s3) =>
                   ⟨0, s3, [Event.GetLatestVersion ipfsVersionPath (Result.ok v),
                      Event.InstallVersion ipfsVersionPath v (c.flagBool "no-check") none,
                      Event.stumpLog ["\ninstallation complete."],
                      Event.hasDaemonRunning true,
                      Event.stumpLog ["remember to restart your daemon before continuing"]]⟩
                 | (false, s3) =>
                   ⟨0, s3, [Event.GetLatestVersion ipfsVersionPath (Result.ok v),
                      Event.InstallVersion ipfsVersionPath v (c.flagBool "no-check") none,
                      Event.stumpLog ["\ninstallation complete."],
                      Event.hasDaemonRunning false]⟩)
            ∧ installVersionCalls (runAction (installAction env c) s).trace = [v]
            ∧ (v ≠ "latest" →
                "latest" ∉ installVersionCalls (runAction (installAction env c) s).trace)) := by
  constructor
  · intro hnl
    rcases hin : env.InstallVersion ipfsVersionPath (Args.First c.args) (c.flagBool "no-check") s
      with ⟨r, s2⟩
    cases r with
    | some e =>
      simp [runAction, installAction, bind_run, pure_run, Cmd.bind, call, stumpFatal, stumpLog,
        emit, hne, hnl, hin, installVersionCalls]
      exact fun h => hnl h.symm
    | none =>
      rcases hd : env.hasDaemonRunning s2 with ⟨d, s3⟩
      cases d <;>
      · simp [runAction, installAction, bind_run, pure_run, Cmd.bind, call, stumpFatal, stumpLog,
          emit, hne, hnl, hin, hd, installVersionCalls]
        exact fun h => hnl h.symm
  · intro hl v s1 hlat
    rcases hin : env.InstallVersion ipfsVersionPath v (c.flagBool "no-check") s1 with ⟨r, s2⟩
    cases r with
    | some e =>
      simp [runAction, installAction, bind_run, pure_run, Cmd.bind, call, stumpFatal, stumpLog,
        emit, hl, hlat, hin, installVersionCalls]
      exact fun h1 h2 => h1 h2.symm
    | none =>
      rcases hd : env.hasDaemonRunning s2 with ⟨d, s3⟩
      cases d <;>
      · simp [runAction, installAction, bind_run, pure_run, Cmd.bind, call, stumpFatal, stumpLog,
          emit, hl, hlat, hin, hd, installVersionCalls]
        exact fun h1 h2 => h1 h2.symm

/-- C6 on the demo world: `install 0.4.0` runs `InstallVersion` on "0.4.0" and ends in
the world where 0.4.0 is the active binary; `install latest` installs "0.4.1". -/
theorem install_passes_resolved_version_witness :
    runAction (installAction demoEnv (ctxArgs ["0.4.0"])) demoWorld =
        ⟨0, { demoWorld with files := [(demoInstallPath, "ipfs 0.4.0")], current := some "0.4.0" },
          [Event.InstallVersion ipfsVersionPath "0.4.0" false none,
           Event.stumpLog ["\ninstallation complete."],
           Event.hasDaemonRunning false]⟩
      ∧ installVersionCalls
          (runAction (installAction demoEnv (ctxArgs ["latest"])) demoWorld).trace = ["0.4.1"]
      ∧ (runAction (installAction demoEnv (ctxArgs ["latest"])) demoWorld).st.current
          = some "0.4.1"
      ∧ "latest" ∉ installVersionCalls
          (runAction (installAction demoEnv (ctxArgs ["latest"])) demoWorld).trace :=
  ⟨((install_passes_resolved_version demoEnv (ctxArgs ["0.4.0"]) demoWorld (by decide)).1
      (by decide)).1,
   ((install_passes_resolved_version demoEnv (ctxArgs ["latest"]) demoWorld (by decide)).2
      rfl "0.4.1" demoWorld rfl).2.1,
   by rw [((install_passes_resolved_version demoEnv (ctxArgs ["latest"]) demoWorld
      (by decide)).2 rfl "0.4.1" demoWorld rfl).1]; rfl,
   ((install_passes_resolved_version demoEnv (ctxArgs ["latest"]) demoWorld (by decide)).2
      rfl "0.4.1" demoWorld rfl).2.2 (by decide)⟩

/-- C8: the tag passed to `StashOldBinary` is the `--tag` value when it is non-empty
(the current version is then not asked for), and otherwise the version `v` returned by
`GetCurrentVersion`. In both cases `StashOldBinary` is run exactly once, with that tag
and `true`, and decides the outcome: exit code 0 on success and 1 on an error, in the
world `StashOldBinary` returned. With an empty `--tag` and a failing
`GetCurrentVersion` the process ends with exit code 1 and `StashOldBinary` is never
called. -/
theorem stash_tag_defaults_to_current_version {σ : Type} (env : Env σ) (c : Context) (s : σ) :
    (c.flagString "tag" ≠ "" →
        runAction (stashAction env c) s =
            (match env.StashOldBinary (c.flagString "tag") true s with
             | (none, s2) => ⟨0, s2, [Event.StashOldBinary (c.flagString "tag") true none]⟩
             | (some e, s2) =>
               ⟨1, s2, [Event.StashOldBinary (c.flagString "tag") true (some e),
                  Event.stumpFatal [e.msg]]⟩)
          ∧ stashCalls (runAction (stashAction env c) s).trace = [(c.flagString "tag", true)]
          ∧ (∀ r, Event.GetCurrentVersion r ∉ (runAction (stashAction env c) s).trace))
      ∧ (c.flagString "tag" = "" → ∀ v s1, env.GetCurrentVersion s = (Result.ok v, s1) →
          runAction (stashAction env c) s =
              (match env.StashOldBinary v true s1 with
               | (none, s2) =>
                 ⟨0, s2, [Event.GetCurrentVersion (Result.ok v),
                    Event.StashOldBinary v true none]⟩
               | (some e, s2) =>
                 ⟨1, s2, [Event.GetCurrentVersion (Result.ok v),
                    Event.StashOldBinary v true (some e), Event.stumpFatal [e.msg]]⟩)
            ∧ stashCalls (runAction (stashAction env c) s).trace = [(v, true)])
      ∧ (c.flagString "tag" = "" → ∀ e s1, env.GetCurrentVersion s = (Result.err e, s1) →
          runAction (stashAction env c) s =
              ⟨1, s1, [Event.GetCurrentVersion (Result.err e), Event.stumpFatal [e.msg]]⟩
            ∧ stashCalls (runAction (stashAction env c) s).trace = []
            ∧ (∀ tag keep r,
                Event.StashOldBinary tag keep r ∉ (runAction (stashAction env c) s).trace)) := by
  refine ⟨fun ht => ?_, fun ht v s1 hcur => ?_, fun ht e s1 hcur => ?_⟩
  · rcases hst : env.StashOldBinary (c.flagString "tag") true s with ⟨r, s2⟩
    cases r <;>
      simp [runAction, stashAction, bind_run, pure_run, Cmd.bind, call, stumpFatal, ht, hst,
        stashCalls]
  · rcases hst : env.StashOldBinary v true s1 with ⟨r, s2⟩
    cases r <;>
      simp [runAction, stashAction, bind_run, pure_run, Cmd.bind, call, stumpFatal, ht, hcur,
        hst, stashCalls]
  · simp [runAction, stashAction, bind_run, pure_run, Cmd.bind, call, stumpFatal, ht, hcur,
      stashCalls]

/-- C8 on the demo world: with `--tag before-upgrade` the binary is stashed under that
tag, without a tag under "0.3.0", and without a tag when no binary is installed nothing
is stashed. -/
theorem stash_tag_defaults_to_current_version_witness :
    (runAction (stashAction demoEnv (ctxFlag "tag" "before-upgrade")) demoWorld).st.stash
        = [⟨"before-upgrade", "/home/op/.ipfs/old-bin/ipfs-before-upgrade", demoInstallPath⟩]
      ∧ runAction (stashAction demoEnv (ctxArgs [])) demoWorld =
        ⟨0, { demoWorld with
                files := [("/home/op/.ipfs/old-bin/path-old", demoInstallPath),
                          ("/home/op/.ipfs/old-bin/ipfs-0.3.0", "ipfs 0.3.0"),
                          (demoInstallPath, "ipfs 0.3.0")],
                stash := [⟨"0.3.0", "/home/op/.ipfs/old-bin/ipfs-0.3.0", demoInstallPath⟩] },
          [Event.GetCurrentVersion (Result.ok "0.3.0"),
           Event.StashOldBinary "0.3.0" true none]⟩
      ∧ stashCalls (runAction (stashAction demoEnv (ctxArgs []))
          { demoWorld with current := none }).trace = [] :=
  ⟨by rw [((stash_tag_defaults_to_current_version demoEnv (ctxFlag "tag" "before-upgrade")
      demoWorld).1 (by decide)).1]; rfl,
   ((stash_tag_defaults_to_current_version demoEnv (ctxArgs []) demoWorld).2.1 rfl
      "0.3.0" demoWorld rfl).1,
   ((stash_tag_defaults_to_current_version demoEnv (ctxArgs [])
      { demoWorld with current := none }).2.2 rfl
        ⟨"no ipfs binary installed", false⟩ { demoWorld with current := none } rfl).2.1⟩

/-- Running `fetchAction` gives exactly the outcome of the decision tree. -/
theorem fetchAction_outcome {σ : Type} (env : Env σ) (c : Context) (s : σ) :
    runAction (fetchAction env c) s = fetchOutcome env c s := by
  have tail : ∀ (vers output : String) (s0 : σ) (pre : List Event),
      (match (do
          let err ← call (env.osStat output) (Event.osStat output)
          if err == none then
            stumpFatal ["file named %s already exists"]
          if !osIsNotExist err then
            stumpFatal ["stat(%s)", output, (err.map GoError.msg).getD ""]
          let err2 ← call (env.GetBinaryForVersion ipfsVersionPath vers output)
            (Event.GetBinaryForVersion ipfsVersionPath vers output)
          match err2 with
          | some e => stumpFatal ["Failed to fetch binary: ", e.msg]
          | none => pure ()
          let err3 ← call (env.osChmod output 0o755) (Event.osChmod output 0o755)
          match err3 with
          | some e => stumpFatal ["setting new binary executable: ", e.msg]
          | none => pure () : Cmd σ Unit) ⟨s0, pre⟩ with
        | (Step.val _, w) => (⟨0, w.st, w.trace⟩ : Outcome σ)
        | (Step.exit code, w) => ⟨code, w.st, w.trace⟩) = fetchTail env vers output s0 pre := by
    intro vers output s0 pre
    rcases h2 : env.osStat output s0 with ⟨r2, s1⟩
    cases r2 with
    | none => simp [fetchTail, bind_run, pure_run, Cmd.bind, call, stumpFatal, h2]
    | some e =>
      cases hne : e.notExist with
      | false =>
        simp [fetchTail, bind_run, pure_run, Cmd.bind, call, stumpFatal, h2, hne, osIsNotExist]
      | true =>
        rcases h3 : env.GetBinaryForVersion ipfsVersionPath vers output s1 with ⟨r3, s2⟩
        cases r3 with
        | some e2 =>
          simp [fetchTail, bind_run, pure_run, Cmd.bind, call, stumpFatal, h2, hne, osIsNotExist,
            h3]
        | none =>
          rcases h4 : env.osChmod output 0o755 s2 with ⟨r4, s3⟩
          cases r4 <;>
            simp [fetchTail, bind_run, pure_run, Cmd.bind, call, stumpFatal, h2, hne,
              osIsNotExist, h3, h4]
  by_cases ha : Args.First c.args = "" ∨ Args.First c.args = "latest"
  · rcases h1 : env.GetLatestVersion ipfsVersionPath s with ⟨r1, s0⟩
    cases r1 with
    | err e =>
      simp [runAction, fetchAction, fetchOutcome, bind_run, Cmd.bind, call, stumpFatal, ha, h1]
    | ok v =>
      by_cases hf : c.flagString "output" = ""
      · simpa [runAction, fetchAction, fetchOutcome, bind_run, pure_run, Cmd.bind, call,
          stumpFatal, ha, h1, fetchOutput, hf] using
          tail v ("ipfs-" ++ v) s0 [Event.GetLatestVersion ipfsVersionPath (Result.ok v)]
      · simpa [runAction, fetchAction, fetchOutcome, bind_run, pure_run, Cmd.bind, call,
          stumpFatal, ha, h1, fetchOutput, hf] using
          tail v (c.flagString "output") s0
            [Event.GetLatestVersion ipfsVersionPath (Result.ok v)]
  · by_cases hf : c.flagString "output" = ""
    · simpa [runAction, fetchAction, fetchOutcome, bind_run, pure_run, Cmd.bind, call,
        stumpFatal, ha, fetchOutput, hf] using
        tail (Args.First c.args) ("ipfs-" ++ Args.First c.args) s []
    · simpa [runAction, fetchAction, fetchOutcome, bind_run, pure_run, Cmd.bind, call,
        stumpFatal, ha, fetchOutput, hf] using
        tail (Args.First c.args) (c.flagString "output") s []


/-- C1: in every run of `fetch`, if `os.Stat` on the output path `o` succeeds (a file is
there), the process ends with exit code 1 right after that call: the trace ends with the
`os.Stat` call and the fatal report, `GetBinaryForVersion` and `os.Chmod` are never
called, and if `GetLatestVersion` and `os.Stat` only read the world, the world (the file
included) is the initial one. And whenever `GetBinaryForVersion` is called with output
path `o`, `os.Stat` was called on `o` and returned an error of which `os.IsNotExist`
holds. -/
theorem fetch_never_overwrites_existing_file {σ : Type} (env : Env σ) (c : Context) (s : σ) :
    (∀ o, Event.osStat o none ∈ (runAction (fetchAction env c) s).trace →
        (runAction (fetchAction env c) s).exitCode = 1
          ∧ (∀ root v o2 r,
              Event.GetBinaryForVersion root v o2 r ∉ (runAction (fetchAction env c) s).trace)
          ∧ (∀ o2 m r, Event.osChmod o2 m r ∉ (runAction (fetchAction env c) s).trace)
          ∧ (∃ pre, (runAction (fetchAction env c) s).trace =
              pre ++ [Event.osStat o none, Event.stumpFatal ["file named %s already exists"]])
          ∧ ((∀ p w, (env.GetLatestVersion p w).2 = w) → (∀ p w, (env.osStat p w).2 = w) →
              (runAction (fetchAction env c) s).st = s))
      ∧ (∀ root v o r,
          Event.GetBinaryForVersion root v o r ∈ (runAction (fetchAction env c) s).trace →
          ∃ e, osIsNotExist (some e) = true
            ∧ Event.osStat o (some e) ∈ (runAction (fetchAction env c) s).trace) := by
  have tail : ∀ (vers output : String) (s0 : σ) (pre : List Event),
      (∀ ev ∈ pre, ∃ p r, ev = Event.GetLatestVersion p r) →
      (∀ o, Event.osStat o none ∈ (fetchTail env vers output s0 pre).trace →
        (fetchTail env vers output s0 pre).exitCode = 1
          ∧ (∀ root v o2 r,
              Event.GetBinaryForVersion root v o2 r ∉ (fetchTail env vers output s0 pre).trace)
          ∧ (∀ o2 m r, Event.osChmod o2 m r ∉ (fetchTail env vers output s0 pre).trace)
          ∧ (∃ pre2, (fetchTail env vers output s0 pre).trace =
              pre2 ++ [Event.osStat o none, Event.stumpFatal ["file named %s already exists"]])
          ∧ ((∀ p w, (env.osStat p w).2 = w) → (fetchTail env vers output s0 pre).st = s0))
      ∧ (∀ root v o r,
          Event.GetBinaryForVersion root v o r ∈ (fetchTail env vers output s0 pre).trace →
          ∃ e, osIsNotExist (some e) = true
            ∧ Event.osStat o (some e) ∈ (fetchTail env vers output s0 pre).trace) := by
    intro vers output s0 pre hpre
    have hp1 : ∀ o r, Event.osStat o r ∉ pre := fun _ _ h => by
      obtain ⟨p, r, h2⟩ := hpre _ h; cases h2
    have hp2 : ∀ root v o r, Event.GetBinaryForVersion root v o r ∉ pre := fun _ _ _ _ h => by
      obtain ⟨p, r, h2⟩ := hpre _ h; cases h2
    have hp3 : ∀ o m r, Event.osChmod o m r ∉ pre := fun _ _ _ h => by
      obtain ⟨p, r, h2⟩ := hpre _ h; cases h2
    rcases h2 : env.osStat output s0 with ⟨r2, s1⟩
    cases r2 with
    | none =>
      have hro : (∀ p w, (env.osStat p w).2 = w) → s1 = s0 := fun h => by
        have := h output s0
        rw [h2] at this
        exact this
      simp [fetchTail, h2, hp1, hp2, hp3]
      exact hro
    | some e =>
      cases hne : e.notExist with
      | false =>
        simp [fetchTail, h2, hne, hp1, hp2]
      | true =>
        rcases h3 : env.GetBinaryForVersion ipfsVersionPath vers output s1 with ⟨r3, s2⟩
        cases r3 with
        | some e2 =>
          simp [fetchTail, h2, hne, hp1, hp2, h3, osIsNotExist]
          intros; assumption
        | none =>
          rcases h4 : env.osChmod output 0o755 s2 with ⟨r4, s3⟩
          cases r4 <;>
          · simp [fetchTail, h2, hne, hp1, hp2, h3, h4, osIsNotExist]
            intros; assumption
  rw [fetchAction_outcome]
  by_cases ha : Args.First c.args = "" ∨ Args.First c.args = "latest"
  · rcases h1 : env.GetLatestVersion ipfsVersionPath s with ⟨r1, s0⟩
    cases r1 with
    | err e => simp [fetchOutcome, ha, h1]
    | ok v =>
      have hs0 : (∀ p w, (env.GetLatestVersion p w).2 = w) → s0 = s := fun h => by
        have := h ipfsVersionPath s
        rw [h1] at this
        exact this
      have ht := tail v (fetchOutput c v) s0
        [Event.GetLatestVersion ipfsVersionPath (Result.ok v)] (by simp)
      simp only [fetchOutcome, if_pos ha, h1]
      refine ⟨fun o ho => ?_, ht.2⟩
      obtain ⟨h5, h6, h7, h8, h9⟩ := ht.1 o ho
      exact ⟨h5, h6, h7, h8, fun hl hst => (h9 hst).trans (hs0 hl)⟩
  · have ht := tail (Args.First c.args) (fetchOutput c (Args.First c.args)) s [] (by simp)
    simp only [fetchOutcome, if_neg ha]
    refine ⟨fun o ho => ?_, ht.2⟩
    obtain ⟨h5, h6, h7, h8, h9⟩ := ht.1 o ho
    exact ⟨h5, h6, h7, h8, fun _ hst => h9 hst⟩

/-- C1 on the demo world: fetching onto the installed binary exits with 1 and leaves
the world as it was; fetching 0.4.0 to a free path was preceded by a not-exist
`os.Stat`. -/
theorem fetch_never_overwrites_existing_file_witness :
    (runAction (fetchAction demoEnv (ctxFlag "output" "/usr/local/bin/ipfs")) demoWorld).exitCode
        = 1
      ∧ (runAction (fetchAction demoEnv (ctxFlag "output" "/usr/local/bin/ipfs")) demoWorld).st
        = demoWorld
      ∧ ∃ e, osIsNotExist (some e) = true ∧ Event.osStat "ipfs-0.4.0" (some e) ∈
          (runAction (fetchAction demoEnv (ctxArgs ["0.4.0"])) demoWorld).trace :=
  ⟨((fetch_never_overwrites_existing_file demoEnv (ctxFlag "output" "/usr/local/bin/ipfs")
      demoWorld).1 "/usr/local/bin/ipfs" (by decide)).1,
   ((fetch_never_overwrites_existing_file demoEnv (ctxFlag "output" "/usr/local/bin/ipfs")
      demoWorld).1 "/usr/local/bin/ipfs" (by decide)).2.2.2.2
        (fun p w => by simp only [demoEnv]; split <;> [rfl; (split <;> rfl)])
        (fun p w => by simp only [demoEnv]; split <;> rfl),
   (fetch_never_overwrites_existing_file demoEnv (ctxArgs ["0.4.0"]) demoWorld).2
      ipfsVersionPath "0.4.0" "ipfs-0.4.0" none (by decide)⟩


/-- Appending to the same string on the left is injective. -/
theorem string_append_left_cancel (p a b : String) (h : p ++ a = p ++ b) : a = b := by
  have h2 : (p ++ a).data = (p ++ b).data := congrArg String.data h
  rw [String.data_append, String.data_append] at h2
  exact String.ext (List.append_cancel_left h2)

/-- What `fetchTail` calls: `os.Stat` once, on the output path, and `GetBinaryForVersion`
and `os.Chmod` only with that version and path, and nothing resolves "latest". -/
theorem fetchTail_calls {σ : Type} (env : Env σ) (vers output : String) (s0 : σ)
    (pre : List Event) (hpre : ∀ ev ∈ pre, ∃ p r, ev = Event.GetLatestVersion p r) :
    (∃ r, Event.osStat output r ∈ (fetchTail env vers output s0 pre).trace)
      ∧ (∀ o r, Event.osStat o r ∈ (fetchTail env vers output s0 pre).trace → o = output)
      ∧ (∀ root v o r,
          Event.GetBinaryForVersion root v o r ∈ (fetchTail env vers output s0 pre).trace →
          root = ipfsVersionPath ∧ v = vers ∧ o = output)
      ∧ (∀ o m r, Event.osChmod o m r ∈ (fetchTail env vers output s0 pre).trace →
          o = output ∧ m = 0o755)
      ∧ (∀ p r, Event.GetLatestVersion p r ∈ (fetchTail env vers output s0 pre).trace →
          Event.GetLatestVersion p r ∈ pre) := by
  have hp1 : ∀ o r, Event.osStat o r ∉ pre := fun _ _ h => by
    obtain ⟨p, r, h2⟩ := hpre _ h; cases h2
  have hp2 : ∀ root v o r, Event.GetBinaryForVersion root v o r ∉ pre := fun _ _ _ _ h => by
    obtain ⟨p, r, h2⟩ := hpre _ h; cases h2
  have hp3 : ∀ o m r, Event.osChmod o m r ∉ pre := fun _ _ _ h => by
    obtain ⟨p, r, h2⟩ := hpre _ h; cases h2
  rcases h2 : env.osStat output s0 with ⟨r2, s1⟩
  cases r2 with
  | none => simp [fetchTail, h2, hp1, hp2, hp3]
  | some e =>
    cases hne : e.notExist with
    | false => simp [fetchTail, h2, hne, hp1, hp2, hp3]
    | true =>
      rcases h3 : env.GetBinaryForVersion ipfsVersionPath vers output s1 with ⟨r3, s2⟩
      cases r3 with
      | some e2 =>
        simp [fetchTail, h2, hne, hp1, hp2, hp3, h3]
        exact fun _ _ _ _ h5 h6 h7 _ => ⟨h5, h6, h7⟩
      | none =>
        rcases h4 : env.osChmod output 0o755 s2 with ⟨r4, s3⟩
        cases r4 <;>
        · simp [fetchTail, h2, hne, hp1, hp2, hp3, h3, h4]
          exact ⟨fun _ _ _ _ h5 h6 h7 _ => ⟨h5, h6, h7⟩, fun _ _ _ h5 h6 _ => ⟨h5, h6⟩⟩

/-- C10, as stated, fails: on a remote index whose last entry is the string "latest",
`fetch` without argument resolves the version "latest" and, with no `--output`, stats,
fetches into and marks executable the path "ipfs-latest". -/
theorem fetch_output_can_be_ipfs_latest :
    (runAction (fetchAction demoEnv (ctxArgs [])) aliasIndexWorld).exitCode = 0
      ∧ (runAction (fetchAction demoEnv (ctxArgs [])) aliasIndexWorld).trace =
          [Event.GetLatestVersion ipfsVersionPath (Result.ok "latest"),
           Event.osStat "ipfs-latest" (some ⟨"no such file or directory", true⟩),
           Event.GetBinaryForVersion ipfsVersionPath "latest" "ipfs-latest" none,
           Event.osChmod "ipfs-latest" 0o755 none]
      ∧ (runAction (fetchAction demoEnv (ctxArgs [])) aliasIndexWorld).st.files.lookup
          "ipfs-latest" = some "ipfs latest" := by
  decide

/-- C10, amended: `fetch` without a version argument runs exactly as `fetch latest`
(same `--output`). With either, when `GetLatestVersion` returns `v`, the output path
`out` is the `--output` value when non-empty and `"ipfs-" ++ v` otherwise, and the run
is: `os.Stat` on `out`; fatal when a file is there or the stat fails otherwise; when the
path does not exist, `GetBinaryForVersion` for version `v` into `out`, then
`os.Chmod(out, 0755)`, each run on the world the call before returned, exit code 0 when
both succeed and 1 otherwise. `out` is "ipfs-latest" or "ipfs-" only when `--output` is
that or `v` is "latest" or empty. When `GetLatestVersion` fails, the process ends with
exit code 1 and nothing is fetched. With an explicit version `a`, the same holds with
`a` for `v`, and "latest" is not resolved. -/
theorem fetch_defaults_to_latest {σ : Type} (env : Env σ) (c : Context) (s : σ) :
    (∀ c2 : Context, (Args.First c.args = "" ∨ Args.First c.args = "latest") →
        (Args.First c2.args = "" ∨ Args.First c2.args = "latest") →
        c2.flagString "output" = c.flagString "output" →
        runAction (fetchAction env c2) s = runAction (fetchAction env c) s)
      ∧ ((Args.First c.args = "" ∨ Args.First c.args = "latest") → ∀ v s0 out,
          env.GetLatestVersion ipfsVersionPath s = (Result.ok v, s0) →
          out = (if c.flagString "output" = "" then "ipfs-" ++ v else c.flagString "output") →
          runAction (fetchAction env c) s =
              (match env.osStat out s0 with
               | (none, s1) =>
                 ⟨1, s1, [Event.GetLatestVersion ipfsVersionPath (Result.ok v),
                    Event.osStat out none,
                    Event.stumpFatal ["file named %s already exists"]]⟩
               | (some e, s1) =>
                 if e.notExist = true then
                   match env.GetBinaryForVersion ipfsVersionPath v out s1 with
                   | (some e2, s2) =>
                     ⟨1, s2, [Event.GetLatestVersion ipfsVersionPath (Result.ok v),
                        Event.osStat out (some e),
                        Event.GetBinaryForVersion ipfsVersionPath v out (some e2),
                        Event.stumpFatal ["Failed to fetch binary: ", e2.msg]]⟩
                   | (none, s2) =>
                     match env.osChmod out 0o755 s2 with
                     | (some e3, s3) =>
                       ⟨1, s3, [Event.GetLatestVersion ipfsVersionPath (Result.ok v),
                          Event.osStat out (some e),
                          Event.GetBinaryForVersion ipfsVersionPath v out none,
                          Event.osChmod out 0o755 (some e3),
                          Event.stumpFatal ["setting new binary executable: ", e3.msg]]⟩
                     | (none, s3) =>
                       ⟨0, s3, [Event.GetLatestVersion ipfsVersionPath (Result.ok v),
                          Event.osStat out (some e),
                          Event.GetBinaryForVersion ipfsVersionPath v out none,
                          Event.osChmod out 0o755 none]⟩
                 else
                   ⟨1, s1, [Event.GetLatestVersion ipfsVersionPath (Result.ok v),
                      Event.osStat out (some e),
                      Event.stumpFatal ["stat(%s)", out, e.msg]]⟩)
            ∧ (∃ r, Event.osStat out r ∈ (runAction (fetchAction env c) s).trace)
            ∧ (∀ o r, Event.osStat o r ∈ (runAction (fetchAction env c) s).trace → o = out)
            ∧ (∀ root v2 o r,
                Event.GetBinaryForVersion root v2 o r ∈ (runAction (fetchAction env c) s).trace →
                root = ipfsVersionPath ∧ v2 = v ∧ o = out)
            ∧ (∀ o m r, Event.osChmod o m r ∈ (runAction (fetchAction env c) s).trace →
                o = out)
            ∧ (c.flagString "output" = "" → v ≠ "" → v ≠ "latest" →
                out ≠ "ipfs-latest" ∧ out ≠ "ipfs-"
                  ∧ (∀ r, Event.osStat "ipfs-latest" r ∉ (runAction (fetchAction env c) s).trace)
                  ∧ (∀ r, Event.osStat "ipfs-" r ∉ (runAction (fetchAction env c) s).trace)
                  ∧ (∀ root v2 r, Event.GetBinaryForVersion root v2 "ipfs-latest" r
                      ∉ (runAction (fetchAction env c) s).trace)
                  ∧ (∀ root v2 r, Event.GetBinaryForVersion root v2 "ipfs-" r
                      ∉ (runAction (fetchAction env c) s).trace)))
      ∧ ((Args.First c.args = "" ∨ Args.First c.args = "latest") → ∀ e s0,
          env.GetLatestVersion ipfsVersionPath s = (Result.err e, s0) →
          runAction (fetchAction env c) s =
            ⟨1, s0, [Event.GetLatestVersion ipfsVersionPath (Result.err e),
                     Event.stumpFatal ["error querying latest version: ", e.msg]]⟩)
      ∧ (¬ (Args.First c.args = "" ∨ Args.First c.args = "latest") → ∀ out,
          out = (if c.flagString "output" = "" then "ipfs-" ++ Args.First c.args
                 else c.flagString "output") →
          runAction (fetchAction env c) s =
              (match env.osStat out s with
               | (none, s1) =>
                 ⟨1, s1, [Event.osStat out none,
                    Event.stumpFatal ["file named %s already exists"]]⟩
               | (some e, s1) =>
                 if e.notExist = true then
                   match env.GetBinaryForVersion ipfsVersionPath (Args.First c.args) out s1 with
                   | (some e2, s2) =>
                     ⟨1, s2, [Event.osStat out (some e),
                        Event.GetBinaryForVersion ipfsVersionPath (Args.First c.args) out
                          (some e2),
                        Event.stumpFatal ["Failed to fetch binary: ", e2.msg]]⟩
                   | (none, s2) =>
                     match env.osChmod out 0o755 s2 with
                     | (some e3, s3) =>
                       ⟨1, s3, [Event.osStat out (some e),
                          Event.GetBinaryForVersion ipfsVersionPath (Args.First c.args) out none,
                          Event.osChmod out 0o755 (some e3),
                          Event.stumpFatal ["setting new binary executable: ", e3.msg]]⟩
                     | (none, s3) =>
                       ⟨0, s3, [Event.osStat out (some e),
                          Event.GetBinaryForVersion ipfsVersionPath (Args.First c.args) out none,
                          Event.osChmod out 0o755 none]⟩
                 else
                   ⟨1, s1, [Event.osStat out (some e),
                      Event.stumpFatal ["stat(%s)", out, e.msg]]⟩)
            ∧ (∀ p r, Event.GetLatestVersion p r ∉ (runAction (fetchAction env c) s).trace)
            ∧ (c.flagString "output" = "" → out ≠ "ipfs-latest" ∧ out ≠ "ipfs-")) := by
  refine ⟨fun c2 ha ha2 hf => ?_, fun ha v s0 out h1 hout => ?_, fun ha e s0 h1 => ?_,
    fun ha out hout => ?_⟩
  · rw [fetchAction_outcome, fetchAction_outcome]
    simp only [fetchOutcome, if_pos ha, if_pos ha2, fetchOutput, hf]
  · have ho : fetchOutput c v = out := hout.symm
    have ht := fetchTail_calls env v out s0
      [Event.GetLatestVersion ipfsVersionPath (Result.ok v)] (by simp)
    rw [fetchAction_outcome]
    simp only [fetchOutcome, if_pos ha, h1, ho]
    refine ⟨by simp only [fetchTail, List.singleton_append, List.cons_append, List.nil_append],
      ht.1, ht.2.1, ht.2.2.1, fun o m r h => (ht.2.2.2.1 o m r h).1, fun hf hv1 hv2 => ?_⟩
    have hout2 : out = "ipfs-" ++ v := by rw [hout, if_pos hf]
    have hn1 : out ≠ "ipfs-latest" := fun h =>
      hv2 (string_append_left_cancel "ipfs-" v "latest" (hout2.symm.trans h))
    have hn2 : out ≠ "ipfs-" := fun h =>
      hv1 (string_append_left_cancel "ipfs-" v "" (hout2.symm.trans h))
    exact ⟨hn1, hn2, fun r h => hn1 (ht.2.1 _ r h).symm, fun r h => hn2 (ht.2.1 _ r h).symm,
      fun root v2 r h => hn1 (ht.2.2.1 root v2 _ r h).2.2.symm,
      fun root v2 r h => hn2 (ht.2.2.1 root v2 _ r h).2.2.symm⟩
  · rw [fetchAction_outcome]
    simp only [fetchOutcome, if_pos ha, h1]
  · have ho : fetchOutput c (Args.First c.args) = out := hout.symm
    have ht := fetchTail_calls env (Args.First c.args) out s [] (by simp)
    rw [fetchAction_outcome]
    simp only [fetchOutcome, if_neg ha, ho]
    refine ⟨by simp only [fetchTail, List.nil_append],
      fun p r h => by simpa using ht.2.2.2.2 p r h, fun hf => ?_⟩
    have hout2 : out = "ipfs-" ++ Args.First c.args := by rw [hout, if_pos hf]
    exact ⟨fun h => ha (Or.inr (string_append_left_cancel "ipfs-" _ "latest"
        (hout2.symm.trans h))),
      fun h => ha (Or.inl (string_append_left_cancel "ipfs-" _ "" (hout2.symm.trans h)))⟩

/-- C10, amended, on the demo world: `fetch` and `fetch latest` run alike; `fetch`
fetches 0.4.1 into "ipfs-0.4.1"; on an empty index it exits with 1; `fetch 0.4.0`
fetches 0.4.0 into "ipfs-0.4.0". -/
theorem fetch_defaults_to_latest_witness :
    runAction (fetchAction demoEnv (ctxArgs ["latest"])) demoWorld
        = runAction (fetchAction demoEnv (ctxArgs [])) demoWorld
      ∧ runAction (fetchAction demoEnv (ctxArgs [])) demoWorld =
          ⟨0, { demoWorld with
                  files := [("ipfs-0.4.1", "ipfs 0.4.1"), (demoInstallPath, "ipfs 0.3.0")] },
            [Event.GetLatestVersion ipfsVersionPath (Result.ok "0.4.1"),
             Event.osStat "ipfs-0.4.1" (some ⟨"no such file or directory", true⟩),
             Event.GetBinaryForVersion ipfsVersionPath "0.4.1" "ipfs-0.4.1" none,
             Event.osChmod "ipfs-0.4.1" 0o755 none]⟩
      ∧ (∀ r, Event.osStat "ipfs-latest" r
          ∉ (runAction (fetchAction demoEnv (ctxArgs [])) demoWorld).trace)
      ∧ (runAction (fetchAction demoEnv (ctxArgs [])) emptyIndexWorld).exitCode = 1
      ∧ (runAction (fetchAction demoEnv (ctxArgs ["0.4.0"])) demoWorld).st.files.lookup
          "ipfs-0.4.0" = some "ipfs 0.4.0" :=
  ⟨(fetch_defaults_to_latest demoEnv (ctxArgs []) demoWorld).1 (ctxArgs ["latest"])
      (by decide) (by decide) rfl,
   ((fetch_defaults_to_latest demoEnv (ctxArgs []) demoWorld).2.1 (by decide)
      "0.4.1" demoWorld "ipfs-0.4.1" rfl (by decide)).1,
   (((fetch_defaults_to_latest demoEnv (ctxArgs []) demoWorld).2.1 (by decide)
      "0.4.1" demoWorld "ipfs-0.4.1" rfl (by decide)).2.2.2.2.2
        rfl (by decide) (by decide)).2.2.1,
   by rw [(fetch_defaults_to_latest demoEnv (ctxArgs []) emptyIndexWorld).2.2.1 (by decide)
      ⟨"no versions published", false⟩ emptyIndexWorld rfl],
   by rw [((fetch_defaults_to_latest demoEnv (ctxArgs ["0.4.0"]) demoWorld).2.2.2 (by decide)
      "ipfs-0.4.0" (by decide)).1]; rfl⟩

/-- C7: once `fetch` has found with `os.Stat` that the output path `out` does not
exist, it runs `GetBinaryForVersion` into `out`; when that succeeds it runs
`os.Chmod(out, 0755)` on the same path, on the world the fetch returned, and exits
with code 0 in the world `os.Chmod` returned when that succeeds; when either call
returns an error the process ends with exit code 1 (after a failed fetch, `os.Chmod`
is not run). And in every run: a successful `GetBinaryForVersion` into `o` is followed
by `os.Chmod(o, 0755)`, exit code 0 happens only with both successful on the same
path, and a failed one of the two gives exit code 1. -/
theorem fetch_marks_output_executable {σ : Type} (env : Env σ) (c : Context) (s : σ) :
    (∀ root v o,
        Event.GetBinaryForVersion root v o none ∈ (runAction (fetchAction env c) s).trace →
        ∃ r, Event.osChmod o 0o755 r ∈ (runAction (fetchAction env c) s).trace)
      ∧ ((runAction (fetchAction env c) s).exitCode = 0 →
          ∃ pre v o, (runAction (fetchAction env c) s).trace =
            pre ++ [Event.GetBinaryForVersion ipfsVersionPath v o none,
                    Event.osChmod o 0o755 none])
      ∧ (∀ root v o e,
          Event.GetBinaryForVersion root v o (some e) ∈ (runAction (fetchAction env c) s).trace →
          (runAction (fetchAction env c) s).exitCode = 1
            ∧ ∀ o2 m r, Event.osChmod o2 m r ∉ (runAction (fetchAction env c) s).trace)
      ∧ (∀ o m e, Event.osChmod o m (some e) ∈ (runAction (fetchAction env c) s).trace →
          (runAction (fetchAction env c) s).exitCode = 1)
      ∧ (¬ (Args.First c.args = "" ∨ Args.First c.args = "latest") → ∀ out e s1,
          out = (if c.flagString "output" = "" then "ipfs-" ++ Args.First c.args
                 else c.flagString "output") →
          env.osStat out s = (some e, s1) → e.notExist = true →
          runAction (fetchAction env c) s =
            (match env.GetBinaryForVersion ipfsVersionPath (Args.First c.args) out s1 with
             | (some e2, s2) =>
               ⟨1, s2, [Event.osStat out (some e),
                  Event.GetBinaryForVersion ipfsVersionPath (Args.First c.args) out (some e2),
                  Event.stumpFatal ["Failed to fetch binary: ", e2.msg]]⟩
             | (none, s2) =>
               match env.osChmod out 0o755 s2 with
               | (some e3, s3) =>
                 ⟨1, s3, [Event.osStat out (some e),
                    Event.GetBinaryForVersion ipfsVersionPath (Args.First c.args) out none,
                    Event.osChmod out 0o755 (some e3),
                    Event.stumpFatal ["setting new binary executable: ", e3.msg]]⟩
               | (none, s3) =>
                 ⟨0, s3, [Event.osStat out (some e),
                    Event.GetBinaryForVersion ipfsVersionPath (Args.First c.args) out none,
                    Event.osChmod out 0o755 none]⟩))
      ∧ ((Args.First c.args = "" ∨ Args.First c.args = "latest") → ∀ v s0 out e s1,
          env.GetLatestVersion ipfsVersionPath s = (Result.ok v, s0) →
          out = (if c.flagString "output" = "" then "ipfs-" ++ v else c.flagString "output") →
          env.osStat out s0 = (some e, s1) → e.notExist = true →
          runAction (fetchAction env c) s =
            (match env.GetBinaryForVersion ipfsVersionPath v out s1 with
             | (some e2, s2) =>
               ⟨1, s2, [Event.GetLatestVersion ipfsVersionPath (Result.ok v),
                  Event.osStat out (some e),
                  Event.GetBinaryForVersion ipfsVersionPath v out (some e2),
                  Event.stumpFatal ["Failed to fetch binary: ", e2.msg]]⟩
             | (none, s2) =>
               match env.osChmod out 0o755 s2 with
               | (some e3, s3) =>
                 ⟨1, s3, [Event.GetLatestVersion ipfsVersionPath (Result.ok v),
                    Event.osStat out (some e),
                    Event.GetBinaryForVersion ipfsVersionPath v out none,
                    Event.osChmod out 0o755 (some e3),
                    Event.stumpFatal ["setting new binary executable: ", e3.msg]]⟩
               | (none, s3) =>
                 ⟨0, s3, [Event.GetLatestVersion ipfsVersionPath (Result.ok v),
                    Event.osStat out (some e),
                    Event.GetBinaryForVersion ipfsVersionPath v out none,
                    Event.osChmod out 0o755 none]⟩)) := by
  have general :
      (∀ root v o,
          Event.GetBinaryForVersion root v o none ∈ (runAction (fetchAction env c) s).trace →
          ∃ r, Event.osChmod o 0o755 r ∈ (runAction (fetchAction env c) s).trace)
        ∧ ((runAction (fetchAction env c) s).exitCode = 0 →
            ∃ pre v o, (runAction (fetchAction env c) s).trace =
              pre ++ [Event.GetBinaryForVersion ipfsVersionPath v o none,
                      Event.osChmod o 0o755 none])
        ∧ (∀ root v o e,
            Event.GetBinaryForVersion root v o (some e) ∈ (runAction (fetchAction env c) s).trace →
            (runAction (fetchAction env c) s).exitCode = 1
              ∧ ∀ o2 m r, Event.osChmod o2 m r ∉ (runAction (fetchAction env c) s).trace)
        ∧ (∀ o m e, Event.osChmod o m (some e) ∈ (runAction (fetchAction env c) s).trace →
            (runAction (fetchAction env c) s).exitCode = 1) := by
    have tail : ∀ (vers output : String) (s0 : σ) (pre : List Event),
        (∀ ev ∈ pre, ∃ p r, ev = Event.GetLatestVersion p r) →
        (∀ root v o,
          Event.GetBinaryForVersion root v o none ∈ (fetchTail env vers output s0 pre).trace →
          ∃ r, Event.osChmod o 0o755 r ∈ (fetchTail env vers output s0 pre).trace)
        ∧ ((fetchTail env vers output s0 pre).exitCode = 0 →
            ∃ pre2 v o, (fetchTail env vers output s0 pre).trace =
              pre2 ++ [Event.GetBinaryForVersion ipfsVersionPath v o none,
                      Event.osChmod o 0o755 none])
        ∧ (∀ root v o e,
            Event.GetBinaryForVersion root v o (some e) ∈ (fetchTail env vers output s0 pre).trace →
            (fetchTail env vers output s0 pre).exitCode = 1
              ∧ ∀ o2 m r, Event.osChmod o2 m r ∉ (fetchTail env vers output s0 pre).trace)
        ∧ (∀ o m e, Event.osChmod o m (some e) ∈ (fetchTail env vers output s0 pre).trace →
            (fetchTail env vers output s0 pre).exitCode = 1) := by
      intro vers output s0 pre hpre
      have hp2 : ∀ root v o r, Event.GetBinaryForVersion root v o r ∉ pre := fun _ _ _ _ h => by
        obtain ⟨p, r, h2⟩ := hpre _ h; cases h2
      have hp3 : ∀ o m r, Event.osChmod o m r ∉ pre := fun _ _ _ h => by
        obtain ⟨p, r, h2⟩ := hpre _ h; cases h2
      rcases h2 : env.osStat output s0 with ⟨r2, s1⟩
      cases r2 with
      | none => simp [fetchTail, h2, hp2, hp3]
      | some e =>
        cases hne : e.notExist with
        | false => simp [fetchTail, h2, hne, hp2, hp3]
        | true =>
          rcases h3 : env.GetBinaryForVersion ipfsVersionPath vers output s1 with ⟨r3, s2⟩
          cases r3 with
          | some e2 =>
            simp [fetchTail, h2, hne, hp2, hp3, h3]
          | none =>
            rcases h4 : env.osChmod output 0o755 s2 with ⟨r4, s3⟩
            cases r4 with
            | some e3 =>
              simp [fetchTail, h2, hne, hp2, hp3, h3, h4]
            | none =>
              simp [fetchTail, h2, hne, hp2, hp3, h3, h4]
              exact ⟨pre ++ [Event.osStat output (some e)], vers, output, by simp⟩
    rw [fetchAction_outcome]
    by_cases ha : Args.First c.args = "" ∨ Args.First c.args = "latest"
    · rcases h1 : env.GetLatestVersion ipfsVersionPath s with ⟨r1, s0⟩
      cases r1 with
      | err e => simp [fetchOutcome, ha, h1]
      | ok v =>
        simp only [fetchOutcome, if_pos ha, h1]
        exact tail v (fetchOutput c v) s0 _ (by simp)
    · simp only [fetchOutcome, if_neg ha]
      exact tail _ _ s [] (by simp)
  refine ⟨general.1, general.2.1, general.2.2.1, general.2.2.2, ?_, ?_⟩
  · intro ha out e s1 hout hst hne
    have ho : fetchOutput c (Args.First c.args) = out := hout.symm
    rw [fetchAction_outcome]
    simp only [fetchOutcome, if_neg ha, ho, fetchTail, hst, hne, if_true, List.nil_append]
  · intro ha v s0 out e s1 h1 hout hst hne
    have ho : fetchOutput c v = out := hout.symm
    rw [fetchAction_outcome]
    simp only [fetchOutcome, if_pos ha, h1, ho, fetchTail, hst, hne, if_true,
      List.singleton_append, List.cons_append, List.nil_append]

/-- C7 on the demo world: `fetch 0.4.0` fetches into "ipfs-0.4.0", runs the chmod on it
and exits with 0 in the world holding the fetched file; `fetch 9.9.9`, a version that is
not published, exits with 1. -/
theorem fetch_marks_output_executable_witness :
    (∃ r, Event.osChmod "ipfs-0.4.0" 0o755 r
        ∈ (runAction (fetchAction demoEnv (ctxArgs ["0.4.0"])) demoWorld).trace)
      ∧ (∃ pre v o, (runAction (fetchAction demoEnv (ctxArgs ["0.4.0"])) demoWorld).trace =
          pre ++ [Event.GetBinaryForVersion ipfsVersionPath v o none, Event.osChmod o 0o755 none])
      ∧ (runAction (fetchAction demoEnv (ctxArgs ["9.9.9"])) demoWorld).exitCode = 1
      ∧ runAction (fetchAction demoEnv (ctxArgs ["0.4.0"])) demoWorld =
          ⟨0, { demoWorld with
                  files := [("ipfs-0.4.0", "ipfs 0.4.0"), (demoInstallPath, "ipfs 0.3.0")] },
            [Event.osStat "ipfs-0.4.0" (some ⟨"no such file or directory", true⟩),
             Event.GetBinaryForVersion ipfsVersionPath "0.4.0" "ipfs-0.4.0" none,
             Event.osChmod "ipfs-0.4.0" 0o755 none]⟩
      ∧ runAction (fetchAction demoEnv (ctxArgs [])) demoWorld =
          ⟨0, { demoWorld with
                  files := [("ipfs-0.4.1", "ipfs 0.4.1"), (demoInstallPath, "ipfs 0.3.0")] },
            [Event.GetLatestVersion ipfsVersionPath (Result.ok "0.4.1"),
             Event.osStat "ipfs-0.4.1" (some ⟨"no such file or directory", true⟩),
             Event.GetBinaryForVersion ipfsVersionPath "0.4.1" "ipfs-0.4.1" none,
             Event.osChmod "ipfs-0.4.1" 0o755 none]⟩ :=
  ⟨(fetch_marks_output_executable demoEnv (ctxArgs ["0.4.0"]) demoWorld).1
      ipfsVersionPath "0.4.0" "ipfs-0.4.0" (by decide),
   (fetch_marks_output_executable demoEnv (ctxArgs ["0.4.0"]) demoWorld).2.1 (by decide),
   ((fetch_marks_output_executable demoEnv (ctxArgs ["9.9.9"]) demoWorld).2.2.1
      ipfsVersionPath "9.9.9" "ipfs-9.9.9" ⟨"version not found", false⟩ (by decide)).1,
   (fetch_marks_output_executable demoEnv (ctxArgs ["0.4.0"]) demoWorld).2.2.2.2.1 (by decide)
      "ipfs-0.4.0" ⟨"no such file or directory", true⟩ demoWorld (by decide) rfl rfl,
   (fetch_marks_output_executable demoEnv (ctxArgs []) demoWorld).2.2.2.2.2 (by decide)
      "0.4.1" demoWorld "ipfs-0.4.1" ⟨"no such file or directory", true⟩ demoWorld
      rfl (by decide) rfl rfl⟩

/-- C5, as stated, fails. `revert` calls `selectRevertBin()` without argument
(main.go:128), so the selection sees the world and not the command line. In the world
where 0.3.0 and 0.4.0 are stashed, `revert 0.3.0` restores the most recently stashed
binary, 0.4.0, and not the entry tagged "0.3.0"; and whatever the called functions do on
that world, `revert t` cannot restore the entry tagged `t` for every `t`, the run with
"0.3.0" and the run with "0.4.0" being the same run. -/
theorem revert_does_not_select_by_tag :
    lookupTag stashedWorld.stash "0.3.0"
        = some ⟨"0.3.0", "/home/op/.ipfs/old-bin/ipfs-0.3.0", demoInstallPath⟩
      ∧ (runAction (revertAction demoEnv (ctxArgs ["0.3.0"])) stashedWorld).trace =
          [Event.selectRevertBin (Result.ok "/home/op/.ipfs/old-bin/ipfs-0.4.0"),
           Event.ipfsDir "/home/op/.ipfs",
           Event.ReadFile "/home/op/.ipfs/old-bin/path-old" (Result.ok "/usr/local/bin/ipfs"),
           Event.InstallBinaryTo "/home/op/.ipfs/old-bin/ipfs-0.4.0" "/usr/local/bin/ipfs" none]
      ∧ (runAction (revertAction demoEnv (ctxArgs ["0.3.0"])) stashedWorld).st.files.lookup
          demoInstallPath = some "ipfs 0.4.0"
      ∧ ¬ ∃ env : Env DemoWorld, ∀ (t : String) (e : StashEntry),
          lookupTag stashedWorld.stash t = some e →
          (installBinaryCalls (runAction (revertAction env (ctxArgs [t])) stashedWorld).trace).map
            Prod.fst = [e.binaryPath] := by
  refine ⟨by decide, by decide, by decide, ?_⟩
  rintro ⟨env, h⟩
  have h1 := h "0.3.0" ⟨"0.3.0", "/home/op/.ipfs/old-bin/ipfs-0.3.0", demoInstallPath⟩ rfl
  have h2 := h "0.4.0" ⟨"0.4.0", "/home/op/.ipfs/old-bin/ipfs-0.4.0", demoInstallPath⟩ rfl
  have h3 : revertAction env (ctxArgs ["0.3.0"]) = revertAction env (ctxArgs ["0.4.0"]) := rfl
  rw [h3, h2] at h1
  revert h1
  decide

/-- C5, amended: `revert` takes no tag; it defines no flag and ignores its positional
arguments. Given any positional arguments `t :: rest`, it runs as with none: it runs
`selectRevertBin` without argument; when that fails the process ends with exit code 1;
when it returns `p` and the pointer record reads `content`, it runs
`InstallBinaryTo p content`, so the binary restored is the one `selectRevertBin`
returned, and ends in the world that call returned, with exit code 0 on success and 1 on
an error. -/
theorem revert_selection_ignores_arguments {σ : Type} (env : Env σ) (t : String)
    (rest : List String) (s : σ) :
    runAction (revertAction env (ctxArgs (t :: rest))) s
        = runAction (revertAction env (ctxArgs [])) s
      ∧ (∀ e s1, env.selectRevertBin s = (Result.err e, s1) →
          runAction (revertAction env (ctxArgs (t :: rest))) s =
            ⟨1, s1, [Event.selectRevertBin (Result.err e), Event.stumpFatal [e.msg]]⟩)
      ∧ (∀ p s1 content s3, env.selectRevertBin s = (Result.ok p, s1) →
          env.ReadFile (env.filepathJoin [(env.ipfsDir s1).1, "old-bin", "path-old"])
              (env.ipfsDir s1).2 = (Result.ok content, s3) →
          installBinaryCalls (runAction (revertAction env (ctxArgs (t :: rest))) s).trace
              = [(p, content)]
            ∧ runAction (revertAction env (ctxArgs (t :: rest))) s =
              (match env.InstallBinaryTo p content s3 with
               | (none, s4) =>
                 ⟨0, s4, [Event.selectRevertBin (Result.ok p),
                    Event.ipfsDir (env.ipfsDir s1).1,
                    Event.ReadFile (env.filepathJoin [(env.ipfsDir s1).1, "old-bin", "path-old"])
                      (Result.ok content),
                    Event.InstallBinaryTo p content none]⟩
               | (some e, s4) =>
                 ⟨1, s4, [Event.selectRevertBin (Result.ok p),
                    Event.ipfsDir (env.ipfsDir s1).1,
                    Event.ReadFile (env.filepathJoin [(env.ipfsDir s1).1, "old-bin", "path-old"])
                      (Result.ok content),
                    Event.InstallBinaryTo p content (some e),
                    Event.stumpError ["failed to move old binary: %s", p],
                    Event.stumpError ["to path: %s", content],
                    Event.stumpFatal [e.msg]]⟩)) := by
  refine ⟨rfl, fun e s1 hsel => ?_, fun p s1 content s3 hsel hrd => ?_⟩
  · simp [runAction, revertAction, bind_run, Cmd.bind, call, stumpFatal, hsel]
  · rcases hin : env.InstallBinaryTo p content s3 with ⟨r, s4⟩
    cases r with
    | none =>
      simp [runAction, revertAction, bind_run, pure_run, Cmd.bind, call, stumpFatal, stumpError,
        emit, bytesToString, hsel, hrd, hin, installBinaryCalls]
    | some e =>
      simp [runAction, revertAction, bind_run, pure_run, Cmd.bind, call, stumpFatal, stumpError,
        emit, bytesToString, hsel, hrd, hin, installBinaryCalls]

/-- C5, amended, on the world with two stashed binaries: `revert 0.3.0` runs as
`revert`, and restores the binary `selectRevertBin` returned, the stashed 0.4.0. -/
theorem revert_selection_ignores_arguments_witness :
    runAction (revertAction demoEnv (ctxArgs ["0.3.0"])) stashedWorld
        = runAction (revertAction demoEnv (ctxArgs [])) stashedWorld
      ∧ installBinaryCalls
          (runAction (revertAction demoEnv (ctxArgs ["0.3.0"])) stashedWorld).trace
          = [("/home/op/.ipfs/old-bin/ipfs-0.4.0", "/usr/local/bin/ipfs")]
      ∧ (runAction (revertAction demoEnv (ctxArgs ["0.3.0"]))
          { stashedWorld with stash := [] }).exitCode = 1 :=
  ⟨(revert_selection_ignores_arguments demoEnv "0.3.0" [] stashedWorld).1,
   ((revert_selection_ignores_arguments demoEnv "0.3.0" [] stashedWorld).2.2
      "/home/op/.ipfs/old-bin/ipfs-0.4.0" stashedWorld "/usr/local/bin/ipfs" stashedWorld
      rfl rfl).1,
   by rw [(revert_selection_ignores_arguments demoEnv "0.3.0" []
      { stashedWorld with stash := [] }).2.1 ⟨"no prior binary found", false⟩
      { stashedWorld with stash := [] } rfl]⟩

end IpfsUpdate
